import Mathlib

/-!
# Verification of the color utility module (`colorUtils.ts`)

A shallow embedding, in Lean 4, of the color derivation and contrast engine:
`hexToHSL`, `hslToHex`, `lightenColor`, `darkenColor`, `getComplementaryColor`,
`getAnalogousColor`, `getContrastRatio`, `generateColorPalette`, and the
internal `hslToRgb` helper.

Modelling conventions:
* JavaScript strings are modelled as lists of characters (`List Char`).
* JavaScript numbers are modelled as exact rationals (`ℚ`); the WCAG gamma
  curve uses the non-rational exponent 2.4, so relative luminance alone is
  modelled in `ℝ`.
* `Math.round x` is `⌊x + 1/2⌋` (JavaScript rounds halves toward `+∞`).
* The JavaScript remainder operator `%` truncates toward zero, so its result
  carries the sign of the dividend; `jsMod` reproduces that (for a nonzero
  modulus, which is the only way the module uses it).
* `parseInt(s, 16)` is modelled for inputs without leading whitespace, sign,
  or a `0x` prefix — the module only ever applies it to two-character slices
  of a hex color string, where those cases cannot distinguish behaviour on
  well-formed input; `none` stands for `NaN`.
-/

/-- JavaScript strings, as their sequences of characters. -/
abbrev HexStr := List Char

/-- `Math.round`: round half toward positive infinity. -/
def jsRound (q : ℚ) : ℤ := ⌊q + 1/2⌋

/-- Truncation of a rational toward zero (`Math.trunc`). -/
def ratTrunc (q : ℚ) : ℤ := if 0 ≤ q then ⌊q⌋ else ⌈q⌉

/-- The JavaScript remainder `a % b` for a nonzero modulus `b`:
`a - b * trunc (a / b)`, whose sign follows the dividend `a`. -/
def jsMod (a b : ℚ) : ℚ := a - b * ratTrunc (a / b)

/-- Value of one hexadecimal digit, case-insensitive (`none` for non-digits). -/
def hexDigitVal? (c : Char) : Option Nat :=
  if '0' ≤ c ∧ c ≤ '9' then some (c.toNat - '0'.toNat)
  else if 'a' ≤ c ∧ c ≤ 'f' then some (c.toNat - 'a'.toNat + 10)
  else if 'A' ≤ c ∧ c ≤ 'F' then some (c.toNat - 'A'.toNat + 10)
  else none

/-- Whether a character is a hexadecimal digit `[0-9a-fA-F]`. -/
def isHexDigit (c : Char) : Bool := (hexDigitVal? c).isSome

/-- Accumulating loop of `parseInt(·, 16)`: consume the maximal prefix of
hex digits. -/
def parseInt16Aux (acc : Nat) : List Char → Nat
  | [] => acc
  | c :: cs =>
    match hexDigitVal? c with
    | some d => parseInt16Aux (16 * acc + d) cs
    | none => acc

/-- `parseInt(s, 16)` on a string without whitespace/sign/`0x` prefix: the
value of the maximal leading run of hex digits, or `none` (JavaScript `NaN`)
when the string starts with a non-digit or is empty. -/
def parseInt16 : List Char → Option Nat
  | [] => none
  | c :: cs =>
    match hexDigitVal? c with
    | some d => some (parseInt16Aux d cs)
    | none => none

/-- `hex.replace('#', '')`: JavaScript `String.replace` with a string pattern
removes only the first occurrence. -/
def replaceFirstHash : List Char → List Char
  | [] => []
  | c :: cs => if c = '#' then cs else c :: replaceFirstHash cs

/-- Digit characters of `n.toString(16)` (lowercase hex, most significant
first); fuel-structured so that it evaluates in the kernel. -/
def natToHexDigitsAux : Nat → Nat → List Char → List Char
  | 0, _, acc => acc
  | fuel + 1, n, acc =>
    let d := Nat.digitChar (n % 16)
    if n / 16 = 0 then d :: acc else natToHexDigitsAux fuel (n / 16) (d :: acc)

/-- `n.toString(16)` for a natural number: lowercase hex digits. -/
def natToHexDigits (n : Nat) : List Char := natToHexDigitsAux (n + 1) n []

/-- `n.toString(16)` for an integer (negative values render with a leading
minus sign, as in JavaScript). -/
def intToStr16 (n : ℤ) : List Char :=
  if n < 0 then '-' :: natToHexDigits n.natAbs else natToHexDigits n.toNat

/-- `s.padStart(2, '0')`. -/
def padStart2 (s : List Char) : List Char := List.replicate (2 - s.length) '0' ++ s

/-- `n.toString(16).padStart(2, '0')` — one output channel of `hslToHex`. -/
def toStr16Pad2 (n : ℤ) : List Char := padStart2 (intToStr16 n)

/-- The `HSLColor` record: hue in degrees, saturation and lightness in
percent. Fields are numbers (exact rationals here); the conversion from hex
produces integer values but the variant functions accept any number. -/
structure HSLColor where
  h : ℚ
  s : ℚ
  l : ℚ
deriving DecidableEq, Repr

/-- The `r`/`g`/`b` record returned by the `hslToRgb` helper (8-bit channel
values produced by `Math.round`). -/
structure RGBColor where
  r : ℤ
  g : ℤ
  b : ℤ
deriving DecidableEq, Repr

/-- `hexToHSL(hex)`: strip one `#`, parse three 2-digit channels, and convert
to HSL with the classic max/min formulas; all three output fields are
`Math.round`ed. `none` models the `NaN`-propagating garbage produced when a
channel slice fails to parse. -/
def hexToHSL (hex : HexStr) : Option HSLColor :=
  let cleanHex := replaceFirstHash hex
  match parseInt16 (cleanHex.take 2), parseInt16 ((cleanHex.drop 2).take 2),
      parseInt16 ((cleanHex.drop 4).take 2) with
  | some rI, some gI, some bI =>
    let r : ℚ := (rI : ℚ) / 255
    let g : ℚ := (gI : ℚ) / 255
    let b : ℚ := (bI : ℚ) / 255
    let maxV := max r (max g b)
    let minV := min r (min g b)
    let diff := maxV - minV
    let l := (maxV + minV) / 2
    let s : ℚ :=
      if diff ≠ 0 then
        if l > 1/2 then diff / (2 - maxV - minV) else diff / (maxV + minV)
      else 0
    let h : ℚ :=
      if diff ≠ 0 then
        if maxV = r then ((g - b) / diff + (if g < b then 6 else 0)) / 6
        else if maxV = g then ((b - r) / diff + 2) / 6
        else ((r - g) / diff + 4) / 6
      else 0
    some ⟨(jsRound (h * 360) : ℤ), (jsRound (s * 100) : ℤ), (jsRound (l * 100) : ℤ)⟩
  | _, _, _ => none

/-- `hslToHex(hsl)`: the standard chroma/intermediate/match (`c`, `x`, `m`)
algorithm over six hue sectors; each channel is rescaled to 0–255, rounded,
and rendered as two zero-padded lowercase hex digits. When no sector guard
fires (the normalized hue is outside `[0, 1)`), the channels keep their
initial value `0`, exactly as in the source. -/
def hslToHex (hsl : HSLColor) : HexStr :=
  let hNorm := hsl.h / 360
  let sNorm := hsl.s / 100
  let lNorm := hsl.l / 100
  let c := (1 - |2 * lNorm - 1|) * sNorm
  let x := c * (1 - |jsMod (hNorm * 6) 2 - 1|)
  let m := lNorm - c / 2
  let rgb : ℚ × ℚ × ℚ :=
    if 0 ≤ hNorm ∧ hNorm < 1/6 then (c, x, 0)
    else if 1/6 ≤ hNorm ∧ hNorm < 2/6 then (x, c, 0)
    else if 2/6 ≤ hNorm ∧ hNorm < 3/6 then (0, c, x)
    else if 3/6 ≤ hNorm ∧ hNorm < 4/6 then (0, x, c)
    else if 4/6 ≤ hNorm ∧ hNorm < 5/6 then (x, 0, c)
    else if 5/6 ≤ hNorm ∧ hNorm < 1 then (c, 0, x)
    else (0, 0, 0)
  '#' :: (toStr16Pad2 (jsRound ((rgb.1 + m) * 255)) ++
    (toStr16Pad2 (jsRound ((rgb.2.1 + m) * 255)) ++
      toStr16Pad2 (jsRound ((rgb.2.2 + m) * 255))))

/-- The internal `hslToRgb(hsl)` helper used by the contrast calculator: the
same `c`/`x`/`m` sector algorithm as `hslToHex`, returning the three rounded
0–255 channels as a record instead of rendering hex digits. -/
def hslToRgb (hsl : HSLColor) : RGBColor :=
  let hNorm := hsl.h / 360
  let sNorm := hsl.s / 100
  let lNorm := hsl.l / 100
  let c := (1 - |2 * lNorm - 1|) * sNorm
  let x := c * (1 - |jsMod (hNorm * 6) 2 - 1|)
  let m := lNorm - c / 2
  let rgb : ℚ × ℚ × ℚ :=
    if 0 ≤ hNorm ∧ hNorm < 1/6 then (c, x, 0)
    else if 1/6 ≤ hNorm ∧ hNorm < 2/6 then (x, c, 0)
    else if 2/6 ≤ hNorm ∧ hNorm < 3/6 then (0, c, x)
    else if 3/6 ≤ hNorm ∧ hNorm < 4/6 then (0, x, c)
    else if 4/6 ≤ hNorm ∧ hNorm < 5/6 then (x, 0, c)
    else if 5/6 ≤ hNorm ∧ hNorm < 1 then (c, 0, x)
    else (0, 0, 0)
  ⟨jsRound ((rgb.1 + m) * 255), jsRound ((rgb.2.1 + m) * 255),
    jsRound ((rgb.2.2 + m) * 255)⟩

/-- `lightenColor(hsl, amount = 20)`: raise lightness, capped at 100. -/
def lightenColor (hsl : HSLColor) (amount : ℚ := 20) : HSLColor :=
  { hsl with l := min 100 (hsl.l + amount) }

/-- `darkenColor(hsl, amount = 20)`: lower lightness, floored at 0. -/
def darkenColor (hsl : HSLColor) (amount : ℚ := 20) : HSLColor :=
  { hsl with l := max 0 (hsl.l - amount) }

/-- `getComplementaryColor(hsl)`: rotate the hue by 180° with the JavaScript
remainder by 360. -/
def getComplementaryColor (hsl : HSLColor) : HSLColor :=
  { hsl with h := jsMod (hsl.h + 180) 360 }

/-- `getAnalogousColor(hsl, offset = 30)`: rotate the hue by `offset` degrees
with the JavaScript remainder by 360. -/
def getAnalogousColor (hsl : HSLColor) (offset : ℚ := 30) : HSLColor :=
  { hsl with h := jsMod (hsl.h + offset) 360 }

/-- The WCAG gamma linearization applied to one 0–255 channel inside
`getLuminance` (`c/12.92` below the threshold, else `((c+0.055)/1.055)^2.4`);
real-valued because of the exponent 2.4. -/
noncomputable def gammaLinearize (n : ℤ) : ℝ :=
  let c : ℝ := (n : ℝ) / 255
  if c ≤ 0.03928 then c / 12.92 else ((c + 0.055) / 1.055) ^ (2.4 : ℝ)

/-- The `getLuminance` closure inside `getContrastRatio`: hex → HSL → RGB,
then the WCAG relative luminance `0.2126 R + 0.7152 G + 0.0722 B`. -/
noncomputable def getLuminance (hex : HexStr) : Option ℝ :=
  (hexToHSL hex).map fun hsl =>
    let rgb := hslToRgb hsl
    0.2126 * gammaLinearize rgb.r + 0.7152 * gammaLinearize rgb.g +
      0.0722 * gammaLinearize rgb.b

/-- `getContrastRatio(color1, color2) = (brightest + 0.05) / (darkest + 0.05)`
on the two relative luminances. -/
noncomputable def getContrastRatio (color1 color2 : HexStr) : Option ℝ :=
  match getLuminance color1, getLuminance color2 with
  | some lum1, some lum2 =>
    some ((max lum1 lum2 + 0.05) / (min lum1 lum2 + 0.05))
  | _, _ => none

/-- The `ColorPalette` record: nine named hex strings. -/
structure ColorPalette where
  primary : HexStr
  primaryLight : HexStr
  primaryDark : HexStr
  secondary : HexStr
  accent : HexStr
  background : HexStr
  surface : HexStr
  text : HexStr
  textSecondary : HexStr
deriving DecidableEq, Repr

/-- `generateColorPalette(baseColor)`: seed → HSL, derive the five seed-based
slots (light/dark variants, a 60° analogous secondary, a saturation-boosted
complementary accent), convert each back to hex, and attach the four fixed
light-mode literals. -/
def generateColorPalette (baseColor : HexStr) : Option ColorPalette :=
  (hexToHSL baseColor).map fun baseHSL =>
    let primaryLight := lightenColor baseHSL 15
    let primaryDark := darkenColor baseHSL 15
    let secondaryHSL := getAnalogousColor baseHSL 60
    let accentHSL := { getComplementaryColor baseHSL with s := min 80 (baseHSL.s + 20) }
    { primary := hslToHex baseHSL
      primaryLight := hslToHex primaryLight
      primaryDark := hslToHex primaryDark
      secondary := hslToHex secondaryHSL
      accent := hslToHex accentHSL
      background := "#ffffff".toList
      surface := "#f8fafc".toList
      text := "#1e293b".toList
      textSecondary := "#64748b".toList }

/-- Well-formedness of a hex color input as the claims use it: an optional
leading `#` followed by exactly six hex digits (the spec's
`^#?[0-9a-fA-F]{6}$`). -/
def wellFormedHex6 (s : HexStr) : Bool :=
  let t := if s.head? = some '#' then s.tail else s
  t.length = 6 && t.all isHexDigit

/-- The output format asserted by the spec, `^#[0-9a-fA-F]{6}$`. -/
def matchesHexPattern : HexStr → Bool
  | '#' :: t => t.length = 6 && t.all isHexDigit
  | _ => false

/-- Decode the three 8-bit channels of a hex color string the same way
`hexToHSL` parses them (strip one `#`, then three two-digit slices). -/
def decodeChannels (s : HexStr) : Option (Nat × Nat × Nat) :=
  let t := replaceFirstHash s
  match parseInt16 (t.take 2), parseInt16 ((t.drop 2).take 2),
      parseInt16 ((t.drop 4).take 2) with
  | some r, some g, some b => some (r, g, b)
  | _, _, _ => none

/-- The round-trip tolerance of the spec: every decoded channel of `a` and
`b` differs by at most 1. -/
def channelsWithin1 (a b : HexStr) : Bool :=
  match decodeChannels a, decodeChannels b with
  | some (r, g, bl), some (r', g', bl') =>
    ((r : ℤ) - r').natAbs ≤ 1 && ((g : ℤ) - g').natAbs ≤ 1 &&
      ((bl : ℤ) - bl').natAbs ≤ 1
  | _, _ => false

/-! ## Generic arithmetic lemmas -/

/-- Mathematical modulo for a positive modulus, used to state spec claims
that speak of `mod`: `a - b * ⌊a / b⌋`. -/
def mathMod (a b : ℚ) : ℚ := a - b * ⌊a / b⌋

lemma ratTrunc_eq_floor {q : ℚ} (h : 0 ≤ q) : ratTrunc q = ⌊q⌋ := if_pos h

lemma jsMod_eq_mathMod {a b : ℚ} (ha : 0 ≤ a) (hb : 0 < b) :
    jsMod a b = mathMod a b := by
  unfold jsMod mathMod
  rw [ratTrunc_eq_floor (div_nonneg ha hb.le)]

lemma jsMod_nonneg_lt {a b : ℚ} (ha : 0 ≤ a) (hb : 0 < b) :
    0 ≤ jsMod a b ∧ jsMod a b < b := by
  unfold jsMod
  rw [ratTrunc_eq_floor (div_nonneg ha hb.le)]
  have h1 : (⌊a / b⌋ : ℚ) ≤ a / b := Int.floor_le (a / b)
  have h2 : a / b < ⌊a / b⌋ + 1 := Int.lt_floor_add_one (a / b)
  have h3 : b * (a / b) = a := by field_simp
  constructor
  · have := mul_le_mul_of_nonneg_left h1 hb.le
    linarith
  · have := mul_lt_mul_of_pos_left h2 hb
    linarith

lemma jsRound_nonneg {q : ℚ} (h : 0 ≤ q) : 0 ≤ jsRound q :=
  Int.le_floor.mpr (by push_cast; linarith)

lemma jsRound_le {q : ℚ} {n : ℕ} (h : q ≤ n) : jsRound q ≤ n := by
  have : jsRound q < (n : ℤ) + 1 := Int.floor_lt.mpr (by push_cast; linarith)
  omega

lemma jsRound_natCast_div_natCast (a b : ℕ) (hb : 0 < b) :
    jsRound ((a : ℚ) / (b : ℚ)) = ((2 * a + b) / (2 * b) : ℕ) := by
  unfold jsRound
  have hbq : ((b : ℚ)) ≠ 0 := by positivity
  have h : ((a : ℚ) / b + 1/2) = ((2*a + b : ℕ) : ℚ) / ((2*b : ℕ) : ℚ) := by
    push_cast
    field_simp
    ring
  rw [h]
  exact_mod_cast Rat.floor_natCast_div_natCast (2*a + b) (2*b)

/-! ## Hex digit and parsing lemmas -/

lemma char_le_toNat {a b : Char} (h : a ≤ b) : a.toNat ≤ b.toNat := by
  simpa [Char.le_def, UInt32.le_def, BitVec.le_def, Char.toNat, UInt32.toNat] using h

lemma hexDigitVal?_lt {c : Char} {v : ℕ} (h : hexDigitVal? c = some v) : v < 16 := by
  have e9 : '9'.toNat = 57 := rfl
  have e0 : '0'.toNat = 48 := rfl
  have ef : 'f'.toNat = 102 := rfl
  have ea : 'a'.toNat = 97 := rfl
  have eF : 'F'.toNat = 70 := rfl
  have eA : 'A'.toNat = 65 := rfl
  unfold hexDigitVal? at h
  split_ifs at h with h1 h2 h3 <;> injection h with h'
  · have := char_le_toNat h1.2
    omega
  · have := char_le_toNat h2.2
    omega
  · have := char_le_toNat h3.2
    omega

lemma isHexDigit_exists {c : Char} (h : isHexDigit c = true) :
    ∃ v, hexDigitVal? c = some v ∧ v < 16 := by
  unfold isHexDigit at h
  rcases hv : hexDigitVal? c with _ | v
  · rw [hv] at h; simp at h
  · exact ⟨v, rfl, hexDigitVal?_lt hv⟩

lemma parseInt16_two_digits {c0 c1 : Char} {v0 v1 : ℕ}
    (h0 : hexDigitVal? c0 = some v0) (h1 : hexDigitVal? c1 = some v1) :
    parseInt16 [c0, c1] = some (16 * v0 + v1) := by
  simp [parseInt16, parseInt16Aux, h0, h1]

set_option maxRecDepth 10000

lemma toStr16Pad2_parse {n : ℕ} (hn : n < 256) :
    parseInt16 (toStr16Pad2 (n : ℤ)) = some n := by
  have h : ∀ m : Fin 256, parseInt16 (toStr16Pad2 ((m : ℕ) : ℤ)) = some (m : ℕ) := by decide
  exact h ⟨n, hn⟩

lemma toStr16Pad2_format {n : ℕ} (hn : n < 256) :
    (toStr16Pad2 (n : ℤ)).length = 2 ∧ (toStr16Pad2 (n : ℤ)).all isHexDigit = true := by
  have h : ∀ m : Fin 256,
      (toStr16Pad2 ((m : ℕ) : ℤ)).length = 2 ∧
        (toStr16Pad2 ((m : ℕ) : ℤ)).all isHexDigit = true := by decide
  exact h ⟨n, hn⟩

lemma isHexDigit_ne_hash {c : Char} (h : isHexDigit c = true) : c ≠ '#' := by
  intro e
  subst e
  exact absurd h (by decide)

lemma replaceFirstHash_no_hash {t : List Char} (h : ∀ c ∈ t, c ≠ '#') :
    replaceFirstHash t = t := by
  induction t with
  | nil => rfl
  | cons c cs ih =>
    rw [replaceFirstHash, if_neg (h c (List.mem_cons_self c cs))]
    rw [ih fun d hd => h d (List.mem_cons_of_mem c hd)]

lemma wellFormed_strip {s : HexStr} (h : wellFormedHex6 s = true) :
    ∃ t, replaceFirstHash s = t ∧ t.length = 6 ∧ t.all isHexDigit = true := by
  unfold wellFormedHex6 at h
  rcases s with _ | ⟨c, cs⟩
  · simp at h
  · by_cases hc : c = '#'
    · subst hc
      simp only [List.head?_cons, Option.some.injEq, if_pos rfl, List.tail_cons] at h
      rw [Bool.and_eq_true] at h
      refine ⟨cs, ?_, by simpa using h.1, h.2⟩
      rw [replaceFirstHash, if_pos rfl]
    · simp only [List.head?_cons, Option.some.injEq, if_neg hc] at h
      rw [Bool.and_eq_true] at h
      refine ⟨c :: cs, ?_, by simpa using h.1, h.2⟩
      refine replaceFirstHash_no_hash fun d hd => ?_
      have := List.all_eq_true.mp h.2 d hd
      exact isHexDigit_ne_hash this

/-- The arithmetic core of `hexToHSL`, factored out on the three parsed
channel values for reasoning; `hexToHSL` computes exactly this after its
parsing stage (see `hexToHSL_decode`). -/
def hslOfChannels (rI gI bI : ℕ) : HSLColor :=
  let r : ℚ := (rI : ℚ) / 255
  let g : ℚ := (gI : ℚ) / 255
  let b : ℚ := (bI : ℚ) / 255
  let maxV := max r (max g b)
  let minV := min r (min g b)
  let diff := maxV - minV
  let l := (maxV + minV) / 2
  let s : ℚ :=
    if diff ≠ 0 then
      if l > 1/2 then diff / (2 - maxV - minV) else diff / (maxV + minV)
    else 0
  let h : ℚ :=
    if diff ≠ 0 then
      if maxV = r then ((g - b) / diff + (if g < b then 6 else 0)) / 6
      else if maxV = g then ((b - r) / diff + 2) / 6
      else ((r - g) / diff + 4) / 6
    else 0
  ⟨(jsRound (h * 360) : ℤ), (jsRound (s * 100) : ℤ), (jsRound (l * 100) : ℤ)⟩

lemma hexToHSL_decode {s : HexStr} {r g b : ℕ}
    (h : decodeChannels s = some (r, g, b)) :
    hexToHSL s = some (hslOfChannels r g b) := by
  rcases hr : parseInt16 ((replaceFirstHash s).take 2) with _ | rv <;>
    rcases hg : parseInt16 (((replaceFirstHash s).drop 2).take 2) with _ | gv <;>
    rcases hb : parseInt16 (((replaceFirstHash s).drop 4).take 2) with _ | bv <;>
    simp only [decodeChannels, hr, hg, hb, Option.some.injEq, Prod.mk.injEq,
      reduceCtorEq] at h
  obtain ⟨h1, h2, h3⟩ := h
  subst h1; subst h2; subst h3
  simp only [hexToHSL, hr, hg, hb]
  rfl

lemma decodeChannels_wf {s : HexStr} (h : wellFormedHex6 s = true) :
    ∃ r g b : ℕ, decodeChannels s = some (r, g, b) ∧ r < 256 ∧ g < 256 ∧ b < 256 := by
  obtain ⟨t, ht, hlen, hall⟩ := wellFormed_strip h
  rcases t with _ | ⟨c0, _ | ⟨c1, _ | ⟨c2, _ | ⟨c3, _ | ⟨c4, _ | ⟨c5, _ | ⟨c6, r⟩⟩⟩⟩⟩⟩⟩ <;>
    simp only [List.length] at hlen <;> try omega
  have hmem := List.all_eq_true.mp hall
  obtain ⟨v0, hv0, hlt0⟩ := isHexDigit_exists (hmem c0 (by simp))
  obtain ⟨v1, hv1, hlt1⟩ := isHexDigit_exists (hmem c1 (by simp))
  obtain ⟨v2, hv2, hlt2⟩ := isHexDigit_exists (hmem c2 (by simp))
  obtain ⟨v3, hv3, hlt3⟩ := isHexDigit_exists (hmem c3 (by simp))
  obtain ⟨v4, hv4, hlt4⟩ := isHexDigit_exists (hmem c4 (by simp))
  obtain ⟨v5, hv5, hlt5⟩ := isHexDigit_exists (hmem c5 (by simp))
  refine ⟨16 * v0 + v1, 16 * v2 + v3, 16 * v4 + v5, ?_, by omega, by omega, by omega⟩
  have e1 : ([c0, c1, c2, c3, c4, c5] : List Char).take 2 = [c0, c1] := rfl
  have e2 : (([c0, c1, c2, c3, c4, c5] : List Char).drop 2).take 2 = [c2, c3] := rfl
  have e3 : (([c0, c1, c2, c3, c4, c5] : List Char).drop 4).take 2 = [c4, c5] := rfl
  simp only [decodeChannels, ht, e1, e2, e3, parseInt16_two_digits hv0 hv1,
    parseInt16_two_digits hv2 hv3, parseInt16_two_digits hv4 hv5]

lemma jsRound_le_int {q : ℚ} {z : ℤ} (h : q ≤ z) : jsRound q ≤ z := by
  have hlt : q + 1/2 < ((z + 1 : ℤ) : ℚ) := by push_cast; linarith
  exact Int.lt_add_one_iff.mp (Int.floor_lt.mpr hlt)

lemma jsRound_mul_cast_bounds {q : ℚ} (h0 : 0 ≤ q) (h1 : q ≤ 1) (n : ℕ) :
    (0:ℚ) ≤ ((jsRound (q * (n:ℚ))) : ℚ) ∧ ((jsRound (q * (n:ℚ))) : ℚ) ≤ (n:ℚ) := by
  have hn : (0:ℚ) ≤ (n:ℚ) := Nat.cast_nonneg n
  have ha : 0 ≤ q * (n:ℚ) := mul_nonneg h0 hn
  have hbd : q * (n:ℚ) ≤ ((n:ℤ):ℚ) := by push_cast; nlinarith
  constructor
  · exact_mod_cast jsRound_nonneg ha
  · exact_mod_cast jsRound_le_int hbd

lemma hslOfChannels_l_mem {rI gI bI : ℕ} (hr : rI < 256) (hg : gI < 256) (hb : bI < 256) :
    0 ≤ (hslOfChannels rI gI bI).l ∧ (hslOfChannels rI gI bI).l ≤ 100 := by
  have hr2 : (rI : ℚ) / 255 ≤ 1 := by
    rw [div_le_one (by norm_num)]
    exact_mod_cast Nat.le_of_lt_succ hr
  have hg2 : (gI : ℚ) / 255 ≤ 1 := by
    rw [div_le_one (by norm_num)]
    exact_mod_cast Nat.le_of_lt_succ hg
  have hb2 : (bI : ℚ) / 255 ≤ 1 := by
    rw [div_le_one (by norm_num)]
    exact_mod_cast Nat.le_of_lt_succ hb
  have hr1 : (0:ℚ) ≤ (rI : ℚ) / 255 := by positivity
  have hg1 : (0:ℚ) ≤ (gI : ℚ) / 255 := by positivity
  have hb1 : (0:ℚ) ≤ (bI : ℚ) / 255 := by positivity
  simp only [hslOfChannels]
  set r : ℚ := (rI : ℚ) / 255 with hrd
  set g : ℚ := (gI : ℚ) / 255 with hgd
  set b : ℚ := (bI : ℚ) / 255 with hbd2
  set maxV := max r (max g b) with hmd
  set minV := min r (min g b) with hnd
  have hmax1 : maxV ≤ 1 := max_le hr2 (max_le hg2 hb2)
  have hmin0 : 0 ≤ minV := le_min hr1 (le_min hg1 hb1)
  have hminmax : minV ≤ maxV := le_trans (min_le_left _ _) (le_max_left _ _)
  have h0 : 0 ≤ (maxV + minV) / 2 := by linarith
  have h1 : (maxV + minV) / 2 ≤ 1 := by linarith
  have := jsRound_mul_cast_bounds h0 h1 100
  constructor
  · exact_mod_cast this.1
  · exact_mod_cast this.2

lemma hslOfChannels_s_mem {rI gI bI : ℕ} (hr : rI < 256) (hg : gI < 256) (hb : bI < 256) :
    0 ≤ (hslOfChannels rI gI bI).s ∧ (hslOfChannels rI gI bI).s ≤ 100 := by
  have hr2 : (rI : ℚ) / 255 ≤ 1 := by
    rw [div_le_one (by norm_num)]
    exact_mod_cast Nat.le_of_lt_succ hr
  have hg2 : (gI : ℚ) / 255 ≤ 1 := by
    rw [div_le_one (by norm_num)]
    exact_mod_cast Nat.le_of_lt_succ hg
  have hb2 : (bI : ℚ) / 255 ≤ 1 := by
    rw [div_le_one (by norm_num)]
    exact_mod_cast Nat.le_of_lt_succ hb
  have hr1 : (0:ℚ) ≤ (rI : ℚ) / 255 := by positivity
  have hg1 : (0:ℚ) ≤ (gI : ℚ) / 255 := by positivity
  have hb1 : (0:ℚ) ≤ (bI : ℚ) / 255 := by positivity
  simp only [hslOfChannels]
  set r : ℚ := (rI : ℚ) / 255 with hrd
  set g : ℚ := (gI : ℚ) / 255 with hgd
  set b : ℚ := (bI : ℚ) / 255 with hbd2
  set maxV := max r (max g b) with hmd
  set minV := min r (min g b) with hnd
  have hmax1 : maxV ≤ 1 := max_le hr2 (max_le hg2 hb2)
  have hmin0 : 0 ≤ minV := le_min hr1 (le_min hg1 hb1)
  have hminmax : minV ≤ maxV := le_trans (min_le_left _ _) (le_max_left _ _)
  split_ifs with hd hlv
  · -- l > 1/2 : s = diff / (2 - max - min)
    have hdp : 0 < maxV - minV := lt_of_le_of_ne (by linarith) (Ne.symm hd)
    have hden : 0 < 2 - maxV - minV := by nlinarith
    have h0 : 0 ≤ (maxV - minV) / (2 - maxV - minV) := div_nonneg (by linarith) hden.le
    have h1 : (maxV - minV) / (2 - maxV - minV) ≤ 1 := by
      rw [div_le_one hden]
      linarith
    have := jsRound_mul_cast_bounds h0 h1 100
    constructor
    · exact_mod_cast this.1
    · exact_mod_cast this.2
  · -- l ≤ 1/2 : s = diff / (max + min)
    have hdp : 0 < maxV - minV := lt_of_le_of_ne (by linarith) (Ne.symm hd)
    have hden : 0 < maxV + minV := by nlinarith
    have h0 : 0 ≤ (maxV - minV) / (maxV + minV) := div_nonneg (by linarith) hden.le
    have h1 : (maxV - minV) / (maxV + minV) ≤ 1 := by
      rw [div_le_one hden]
      linarith
    have := jsRound_mul_cast_bounds h0 h1 100
    constructor
    · exact_mod_cast this.1
    · exact_mod_cast this.2
  · -- diff = 0 : s = 0
    have := jsRound_mul_cast_bounds (le_refl (0:ℚ)) (by norm_num) 100
    constructor
    · exact_mod_cast this.1
    · exact_mod_cast this.2

lemma hslOfChannels_h_mem {rI gI bI : ℕ} (hr : rI < 256) (hg : gI < 256) (hb : bI < 256) :
    0 ≤ (hslOfChannels rI gI bI).h ∧ (hslOfChannels rI gI bI).h ≤ 360 := by
  have hr2 : (rI : ℚ) / 255 ≤ 1 := by
    rw [div_le_one (by norm_num)]
    exact_mod_cast Nat.le_of_lt_succ hr
  have hg2 : (gI : ℚ) / 255 ≤ 1 := by
    rw [div_le_one (by norm_num)]
    exact_mod_cast Nat.le_of_lt_succ hg
  have hb2 : (bI : ℚ) / 255 ≤ 1 := by
    rw [div_le_one (by norm_num)]
    exact_mod_cast Nat.le_of_lt_succ hb
  have hr1 : (0:ℚ) ≤ (rI : ℚ) / 255 := by positivity
  have hg1 : (0:ℚ) ≤ (gI : ℚ) / 255 := by positivity
  have hb1 : (0:ℚ) ≤ (bI : ℚ) / 255 := by positivity
  simp only [hslOfChannels]
  set r : ℚ := (rI : ℚ) / 255 with hrd
  set g : ℚ := (gI : ℚ) / 255 with hgd
  set b : ℚ := (bI : ℚ) / 255 with hbd2
  set maxV := max r (max g b) with hmd
  set minV := min r (min g b) with hnd
  have hmax1 : maxV ≤ 1 := max_le hr2 (max_le hg2 hb2)
  have hmin0 : 0 ≤ minV := le_min hr1 (le_min hg1 hb1)
  have hminmax : minV ≤ maxV := le_trans (min_le_left _ _) (le_max_left _ _)
  have hgle : g ≤ maxV := le_trans (le_max_left g b) (le_max_right r (max g b))
  have hble : b ≤ maxV := le_trans (le_max_right g b) (le_max_right r (max g b))
  have hrle : r ≤ maxV := le_max_left _ _
  have hgge : minV ≤ g := le_trans (min_le_right r (min g b)) (min_le_left g b)
  have hbge : minV ≤ b := le_trans (min_le_right r (min g b)) (min_le_right g b)
  have hrge : minV ≤ r := min_le_left _ _
  split_ifs with hd hmr hgb hmg
  · -- max = r, g < b : h = ((g-b)/diff + 6)/6 ∈ [5/6, 1)
    have hdp : 0 < maxV - minV := lt_of_le_of_ne (by linarith) (Ne.symm hd)
    have e1 : -(1:ℚ) ≤ (g - b) / (maxV - minV) := by
      rw [le_div_iff₀ hdp]
      linarith
    have e2 : (g - b) / (maxV - minV) ≤ 0 :=
      div_nonpos_of_nonpos_of_nonneg (by linarith) (by linarith)
    have h0 : 0 ≤ ((g - b) / (maxV - minV) + 6) / 6 := by linarith
    have h1 : ((g - b) / (maxV - minV) + 6) / 6 ≤ 1 := by linarith
    have := jsRound_mul_cast_bounds h0 h1 360
    exact ⟨by exact_mod_cast this.1, by exact_mod_cast this.2⟩
  · -- max = r, g ≥ b : h = ((g-b)/diff + 0)/6 ∈ [0, 1/6]
    have hdp : 0 < maxV - minV := lt_of_le_of_ne (by linarith) (Ne.symm hd)
    have e1 : 0 ≤ (g - b) / (maxV - minV) := div_nonneg (by linarith) hdp.le
    have e2 : (g - b) / (maxV - minV) ≤ 1 := by
      rw [div_le_one hdp]
      linarith
    have h0 : 0 ≤ ((g - b) / (maxV - minV) + 0) / 6 := by linarith
    have h1 : ((g - b) / (maxV - minV) + 0) / 6 ≤ 1 := by linarith
    have := jsRound_mul_cast_bounds h0 h1 360
    exact ⟨by exact_mod_cast this.1, by exact_mod_cast this.2⟩
  · -- max = g : h = ((b-r)/diff + 2)/6 ∈ [1/6, 1/2]
    have hdp : 0 < maxV - minV := lt_of_le_of_ne (by linarith) (Ne.symm hd)
    have e1 : -(1:ℚ) ≤ (b - r) / (maxV - minV) := by
      rw [le_div_iff₀ hdp]
      linarith
    have e2 : (b - r) / (maxV - minV) ≤ 1 := by
      rw [div_le_one hdp]
      linarith
    have h0 : 0 ≤ ((b - r) / (maxV - minV) + 2) / 6 := by linarith
    have h1 : ((b - r) / (maxV - minV) + 2) / 6 ≤ 1 := by linarith
    have := jsRound_mul_cast_bounds h0 h1 360
    exact ⟨by exact_mod_cast this.1, by exact_mod_cast this.2⟩
  · -- max = b : h = ((r-g)/diff + 4)/6 ∈ [1/2, 5/6]
    have hdp : 0 < maxV - minV := lt_of_le_of_ne (by linarith) (Ne.symm hd)
    have e1 : -(1:ℚ) ≤ (r - g) / (maxV - minV) := by
      rw [le_div_iff₀ hdp]
      linarith
    have e2 : (r - g) / (maxV - minV) ≤ 1 := by
      rw [div_le_one hdp]
      linarith
    have h0 : 0 ≤ ((r - g) / (maxV - minV) + 4) / 6 := by linarith
    have h1 : ((r - g) / (maxV - minV) + 4) / 6 ≤ 1 := by linarith
    have := jsRound_mul_cast_bounds h0 h1 360
    exact ⟨by exact_mod_cast this.1, by exact_mod_cast this.2⟩
  · -- diff = 0 : h = 0
    have := jsRound_mul_cast_bounds (le_refl (0:ℚ)) (by norm_num) 360
    exact ⟨by exact_mod_cast this.1, by exact_mod_cast this.2⟩

lemma jsRound_chan_bounds {q : ℚ} (h0 : 0 ≤ q) (h1 : q ≤ 1) :
    0 ≤ jsRound (q * 255) ∧ jsRound (q * 255) ≤ 255 := by
  constructor
  · exact jsRound_nonneg (by positivity)
  · refine jsRound_le_int (z := 255) ?_
    push_cast
    nlinarith

set_option maxHeartbeats 2000000 in
lemma hslToRgb_bounds {hsl : HSLColor} (hs0 : 0 ≤ hsl.s) (hs1 : hsl.s ≤ 100)
    (hl0 : 0 ≤ hsl.l) (hl1 : hsl.l ≤ 100) :
    0 ≤ (hslToRgb hsl).r ∧ (hslToRgb hsl).r ≤ 255 ∧
      0 ≤ (hslToRgb hsl).g ∧ (hslToRgb hsl).g ≤ 255 ∧
      0 ≤ (hslToRgb hsl).b ∧ (hslToRgb hsl).b ≤ 255 := by
  simp only [hslToRgb]
  set hN : ℚ := hsl.h / 360 with hNd
  set sN : ℚ := hsl.s / 100 with sNd
  set lN : ℚ := hsl.l / 100 with lNd
  have hsN : 0 ≤ sN ∧ sN ≤ 1 := ⟨by positivity, by rw [sNd, div_le_one] <;> linarith⟩
  have hlN : 0 ≤ lN ∧ lN ≤ 1 := ⟨by positivity, by rw [lNd, div_le_one] <;> linarith⟩
  set A : ℚ := 1 - |2 * lN - 1| with Ad
  have hA0 : 0 ≤ A := by
    have : |2 * lN - 1| ≤ 1 := abs_le.mpr ⟨by linarith [hlN.1], by linarith [hlN.2]⟩
    linarith
  have hA2l : A ≤ 2 * lN := by
    have := neg_abs_le (2 * lN - 1)
    rw [Ad]
    linarith
  have hA2l' : A ≤ 2 - 2 * lN := by
    have := le_abs_self (2 * lN - 1)
    rw [Ad]
    linarith
  set c : ℚ := A * sN with cd
  have hc0 : 0 ≤ c := mul_nonneg hA0 hsN.1
  have hcA : c ≤ A := by nlinarith [hsN.1, hsN.2]
  set m : ℚ := lN - c / 2 with md
  have hm0 : 0 ≤ m := by
    rw [md]
    have : c ≤ 2 * lN := le_trans hcA hA2l
    linarith
  have hm1 : m ≤ 1 := by
    rw [md]
    linarith [hlN.2, hc0]
  have hcm1 : c + m ≤ 1 := by
    rw [md]
    have : c ≤ 2 - 2 * lN := le_trans hcA hA2l'
    linarith
  set x : ℚ := c * (1 - |jsMod (hN * 6) 2 - 1|) with xd
  have hxcm : (0 ≤ hN ∧ hN < 1) → 0 ≤ x ∧ x ≤ c := by
    rintro ⟨hh0, hh1⟩
    have ht := jsMod_nonneg_lt (a := hN * 6) (b := 2) (by linarith) (by norm_num)
    have habs : |jsMod (hN * 6) 2 - 1| ≤ 1 :=
      abs_le.mpr ⟨by linarith [ht.1], by linarith [ht.2]⟩
    have habs0 : 0 ≤ |jsMod (hN * 6) 2 - 1| := abs_nonneg _
    constructor
    · rw [xd]; exact mul_nonneg hc0 (by linarith)
    · rw [xd]; nlinarith
  split_ifs with g1 g2 g3 g4 g5 g6 <;> dsimp only
  · have hx := hxcm ⟨g1.1, by linarith [g1.2]⟩
    exact ⟨(jsRound_chan_bounds (by linarith) (by linarith)).1,
      (jsRound_chan_bounds (by linarith) (by linarith)).2,
      (jsRound_chan_bounds (by linarith [hx.1]) (by linarith [hx.2])).1,
      (jsRound_chan_bounds (by linarith [hx.1]) (by linarith [hx.2])).2,
      (jsRound_chan_bounds (by linarith) (by linarith)).1,
      (jsRound_chan_bounds (by linarith) (by linarith)).2⟩
  · have hx := hxcm ⟨by linarith [g2.1], by linarith [g2.2]⟩
    exact ⟨(jsRound_chan_bounds (by linarith [hx.1]) (by linarith [hx.2])).1,
      (jsRound_chan_bounds (by linarith [hx.1]) (by linarith [hx.2])).2,
      (jsRound_chan_bounds (by linarith) (by linarith)).1,
      (jsRound_chan_bounds (by linarith) (by linarith)).2,
      (jsRound_chan_bounds (by linarith) (by linarith)).1,
      (jsRound_chan_bounds (by linarith) (by linarith)).2⟩
  · have hx := hxcm ⟨by linarith [g3.1], by linarith [g3.2]⟩
    exact ⟨(jsRound_chan_bounds (by linarith) (by linarith)).1,
      (jsRound_chan_bounds (by linarith) (by linarith)).2,
      (jsRound_chan_bounds (by linarith) (by linarith)).1,
      (jsRound_chan_bounds (by linarith) (by linarith)).2,
      (jsRound_chan_bounds (by linarith [hx.1]) (by linarith [hx.2])).1,
      (jsRound_chan_bounds (by linarith [hx.1]) (by linarith [hx.2])).2⟩
  · have hx := hxcm ⟨by linarith [g4.1], by linarith [g4.2]⟩
    exact ⟨(jsRound_chan_bounds (by linarith) (by linarith)).1,
      (jsRound_chan_bounds (by linarith) (by linarith)).2,
      (jsRound_chan_bounds (by linarith [hx.1]) (by linarith [hx.2])).1,
      (jsRound_chan_bounds (by linarith [hx.1]) (by linarith [hx.2])).2,
      (jsRound_chan_bounds (by linarith) (by linarith)).1,
      (jsRound_chan_bounds (by linarith) (by linarith)).2⟩
  · have hx := hxcm ⟨by linarith [g5.1], by linarith [g5.2]⟩
    exact ⟨(jsRound_chan_bounds (by linarith [hx.1]) (by linarith [hx.2])).1,
      (jsRound_chan_bounds (by linarith [hx.1]) (by linarith [hx.2])).2,
      (jsRound_chan_bounds (by linarith) (by linarith)).1,
      (jsRound_chan_bounds (by linarith) (by linarith)).2,
      (jsRound_chan_bounds (by linarith) (by linarith)).1,
      (jsRound_chan_bounds (by linarith) (by linarith)).2⟩
  · have hx := hxcm ⟨by linarith [g6.1], g6.2⟩
    exact ⟨(jsRound_chan_bounds (by linarith) (by linarith)).1,
      (jsRound_chan_bounds (by linarith) (by linarith)).2,
      (jsRound_chan_bounds (by linarith) (by linarith)).1,
      (jsRound_chan_bounds (by linarith) (by linarith)).2,
      (jsRound_chan_bounds (by linarith [hx.1]) (by linarith [hx.2])).1,
      (jsRound_chan_bounds (by linarith [hx.1]) (by linarith [hx.2])).2⟩
  · exact ⟨(jsRound_chan_bounds (by linarith) (by linarith)).1,
      (jsRound_chan_bounds (by linarith) (by linarith)).2,
      (jsRound_chan_bounds (by linarith) (by linarith)).1,
      (jsRound_chan_bounds (by linarith) (by linarith)).2,
      (jsRound_chan_bounds (by linarith) (by linarith)).1,
      (jsRound_chan_bounds (by linarith) (by linarith)).2⟩

/-- The three channel values rendered by `hslToHex` are exactly the channels
computed by the `hslToRgb` helper: the two definitions share their math
verbatim, so this holds definitionally. -/
lemma hslToHex_channels (hsl : HSLColor) :
    hslToHex hsl = '#' :: (toStr16Pad2 (hslToRgb hsl).r ++
      (toStr16Pad2 (hslToRgb hsl).g ++ toStr16Pad2 (hslToRgb hsl).b)) := rfl

lemma matchesHexPattern_append {t : List Char} (hlen : t.length = 6)
    (hall : t.all isHexDigit = true) : matchesHexPattern ('#' :: t) = true := by
  simp [matchesHexPattern, hlen, hall]

lemma matchesHexPattern_hslToHex {hsl : HSLColor} (hs0 : 0 ≤ hsl.s) (hs1 : hsl.s ≤ 100)
    (hl0 : 0 ≤ hsl.l) (hl1 : hsl.l ≤ 100) :
    matchesHexPattern (hslToHex hsl) = true := by
  obtain ⟨hr0, hr1, hg0, hg1, hb0, hb1⟩ := hslToRgb_bounds hs0 hs1 hl0 hl1
  rw [hslToHex_channels]
  have er : ((hslToRgb hsl).r.toNat : ℤ) = (hslToRgb hsl).r := Int.toNat_of_nonneg hr0
  have eg : ((hslToRgb hsl).g.toNat : ℤ) = (hslToRgb hsl).g := Int.toNat_of_nonneg hg0
  have eb : ((hslToRgb hsl).b.toNat : ℤ) = (hslToRgb hsl).b := Int.toNat_of_nonneg hb0
  have fr := toStr16Pad2_format (n := (hslToRgb hsl).r.toNat) (by omega)
  have fg := toStr16Pad2_format (n := (hslToRgb hsl).g.toNat) (by omega)
  have fb := toStr16Pad2_format (n := (hslToRgb hsl).b.toNat) (by omega)
  rw [er] at fr
  rw [eg] at fg
  rw [eb] at fb
  refine matchesHexPattern_append ?_ ?_
  · simp [List.length_append, fr.1, fg.1, fb.1]
  · simp only [List.all_append, fr.2, fg.2, fb.2, Bool.and_self]

lemma gammaLinearize_nonneg {n : ℤ} (hn : 0 ≤ n) : 0 ≤ gammaLinearize n := by
  have hc : (0:ℝ) ≤ (n:ℝ) / 255 := by
    have : (0:ℝ) ≤ (n:ℝ) := by exact_mod_cast hn
    positivity
  unfold gammaLinearize
  dsimp only
  split_ifs with h
  · exact div_nonneg hc (by norm_num)
  · apply Real.rpow_nonneg
    apply div_nonneg _ (by norm_num)
    linarith

lemma getLuminance_wf {s : HexStr} (h : wellFormedHex6 s = true) :
    ∃ lum : ℝ, getLuminance s = some lum ∧ 0 ≤ lum := by
  obtain ⟨r, g, b, hdec, hr, hg, hb⟩ := decodeChannels_wf h
  have hhsl := hexToHSL_decode hdec
  have hs := hslOfChannels_s_mem hr hg hb
  have hl := hslOfChannels_l_mem hr hg hb
  obtain ⟨cr0, _, cg0, _, cb0, _⟩ := hslToRgb_bounds hs.1 hs.2 hl.1 hl.2
  refine ⟨0.2126 * gammaLinearize (hslToRgb (hslOfChannels r g b)).r +
    0.7152 * gammaLinearize (hslToRgb (hslOfChannels r g b)).g +
    0.0722 * gammaLinearize (hslToRgb (hslOfChannels r g b)).b, ?_, ?_⟩
  · unfold getLuminance
    rw [hhsl]
    rfl
  · have t1 : (0:ℝ) ≤ 0.2126 * gammaLinearize (hslToRgb (hslOfChannels r g b)).r :=
      mul_nonneg (by norm_num) (gammaLinearize_nonneg cr0)
    have t2 : (0:ℝ) ≤ 0.7152 * gammaLinearize (hslToRgb (hslOfChannels r g b)).g :=
      mul_nonneg (by norm_num) (gammaLinearize_nonneg cg0)
    have t3 : (0:ℝ) ≤ 0.0722 * gammaLinearize (hslToRgb (hslOfChannels r g b)).b :=
      mul_nonneg (by norm_num) (gammaLinearize_nonneg cb0)
    linarith

/-! ## Concrete evaluations -/

lemma hexToHSL_ff0001 : hexToHSL "#ff0001".toList = some ⟨360, 100, 50⟩ := by
  have h1 : parseInt16 ((replaceFirstHash "#ff0001".toList).take 2) = some 255 := by decide
  have h2 : parseInt16 (((replaceFirstHash "#ff0001".toList).drop 2).take 2) = some 0 := by decide
  have h3 : parseInt16 (((replaceFirstHash "#ff0001".toList).drop 4).take 2) = some 1 := by decide
  simp only [hexToHSL, h1, h2, h3]
  norm_num [jsRound, max_def, min_def]

lemma hexToHSL_3b82f6 : hexToHSL "#3b82f6".toList = some ⟨217, 91, 60⟩ := by
  have h1 : parseInt16 ((replaceFirstHash "#3b82f6".toList).take 2) = some 59 := by decide
  have h2 : parseInt16 (((replaceFirstHash "#3b82f6".toList).drop 2).take 2) = some 130 := by decide
  have h3 : parseInt16 (((replaceFirstHash "#3b82f6".toList).drop 4).take 2) = some 246 := by decide
  simp only [hexToHSL, h1, h2, h3]
  norm_num [jsRound, max_def, min_def]

lemma hexToHSL_ffffff : hexToHSL "#ffffff".toList = some ⟨0, 0, 100⟩ := by
  have h1 : parseInt16 ((replaceFirstHash "#ffffff".toList).take 2) = some 255 := by decide
  have h2 : parseInt16 (((replaceFirstHash "#ffffff".toList).drop 2).take 2) = some 255 := by decide
  have h3 : parseInt16 (((replaceFirstHash "#ffffff".toList).drop 4).take 2) = some 255 := by decide
  simp only [hexToHSL, h1, h2, h3]
  norm_num [jsRound, max_def, min_def]

lemma hexToHSL_000000 : hexToHSL "#000000".toList = some ⟨0, 0, 0⟩ := by
  have h1 : parseInt16 ((replaceFirstHash "#000000".toList).take 2) = some 0 := by decide
  have h2 : parseInt16 (((replaceFirstHash "#000000".toList).drop 2).take 2) = some 0 := by decide
  have h3 : parseInt16 (((replaceFirstHash "#000000".toList).drop 4).take 2) = some 0 := by decide
  simp only [hexToHSL, h1, h2, h3]
  norm_num [jsRound, max_def, min_def]

lemma hslToHex_hue360 : hslToHex ⟨360, 100, 50⟩ = "#000000".toList := by
  rw [hslToHex]
  norm_num [jsRound, jsMod, ratTrunc, abs_of_nonneg, abs_of_nonpos]
  decide

lemma hslToHex_217_91_60 : hslToHex ⟨217, 91, 60⟩ = "#3c83f6".toList := by
  rw [hslToHex]
  norm_num [jsRound, jsMod, ratTrunc, abs_of_nonneg, abs_of_nonpos]
  decide

/-! ## The grayscale (achromatic) family -/

/-- The canonical 6-digit hex string of the achromatic color with all three
channels equal to `v`. -/
def grayHex (v : ℕ) : HexStr :=
  '#' :: (toStr16Pad2 (v : ℤ) ++ (toStr16Pad2 (v : ℤ) ++ toStr16Pad2 (v : ℤ)))

lemma length_two_pair {t : List Char} (h : t.length = 2) : ∃ a b, t = [a, b] := by
  rcases t with _ | ⟨a, _ | ⟨b, _ | ⟨c, r⟩⟩⟩ <;> simp at h
  exact ⟨a, b, rfl⟩

lemma decodeChannels_grayHex {v : ℕ} (hv : v < 256) :
    decodeChannels (grayHex v) = some (v, v, v) := by
  obtain ⟨a, b, hab⟩ := length_two_pair (toStr16Pad2_format hv).1
  have hp := toStr16Pad2_parse hv
  rw [hab] at hp
  unfold decodeChannels grayHex
  rw [hab]
  have hr : replaceFirstHash ('#' :: ([a, b] ++ ([a, b] ++ [a, b]))) =
      [a, b] ++ ([a, b] ++ [a, b]) := by
    rw [replaceFirstHash, if_pos rfl]
  rw [hr]
  simp only [List.cons_append, List.nil_append, List.take, List.drop, hp]

lemma hslOfChannels_achromatic (v : ℕ) :
    hslOfChannels v v v = ⟨0, 0, ((jsRound ((v : ℚ) / 255 * 100) : ℤ) : ℚ)⟩ := by
  unfold hslOfChannels
  have e : (((v:ℚ)/255) + ((v:ℚ)/255)) / 2 = (v:ℚ)/255 := by ring
  simp only [max_self, min_self, sub_self, ne_eq, not_true_eq_false, if_false, e,
    reduceIte]
  norm_num [jsRound]

lemma hslToHex_gray (L : ℕ) :
    hslToHex ⟨0, 0, ((L : ℤ) : ℚ)⟩ = grayHex ((510 * L + 100) / 200) := by
  have harg : (L:ℚ) / 100 * 255 = ((255 * L : ℕ) : ℚ) / ((100 : ℕ) : ℚ) := by
    push_cast
    ring
  have hjs : jsRound ((L:ℚ) / 100 * 255) = (((510 * L + 100) / 200 : ℕ) : ℤ) := by
    rw [harg, jsRound_natCast_div_natCast _ _ (by norm_num)]
    congr 1
    omega
  simp only [hslToHex]
  norm_num
  rw [hjs]
  rfl

lemma jsRound_gray_l (v : ℕ) :
    jsRound ((v:ℚ) / 255 * 100) = (((200 * v + 255) / 510 : ℕ) : ℤ) := by
  have harg : (v:ℚ) / 255 * 100 = ((100 * v : ℕ) : ℚ) / ((255 : ℕ) : ℚ) := by
    push_cast
    ring
  rw [harg, jsRound_natCast_div_natCast _ _ (by norm_num)]
  congr 1
  omega

lemma channelsWithin1_gray {a b : ℕ} (ha : a < 256) (hb : b < 256)
    (h1 : (a:ℤ) - b ≤ 1) (h2 : (b:ℤ) - a ≤ 1) :
    channelsWithin1 (grayHex a) (grayHex b) = true := by
  unfold channelsWithin1
  rw [decodeChannels_grayHex ha, decodeChannels_grayHex hb]
  simp only [Bool.and_eq_true, decide_eq_true_eq]
  omega

lemma gray_roundTrip (v : ℕ) (hv : v < 256) :
    (hexToHSL (grayHex v)).map hslToHex =
      some (grayHex ((510 * ((200 * v + 255) / 510) + 100) / 200)) := by
  rw [hexToHSL_decode (decodeChannels_grayHex hv), Option.map_some',
    hslOfChannels_achromatic, jsRound_gray_l, hslToHex_gray]

/-! ## Palette structure -/

lemma generateColorPalette_eq {s : HexStr} {base : HSLColor}
    (h : hexToHSL s = some base) :
    generateColorPalette s = some
      { primary := hslToHex base
        primaryLight := hslToHex (lightenColor base 15)
        primaryDark := hslToHex (darkenColor base 15)
        secondary := hslToHex (getAnalogousColor base 60)
        accent := hslToHex ⟨jsMod (base.h + 180) 360, min 80 (base.s + 20), base.l⟩
        background := "#ffffff".toList
        surface := "#f8fafc".toList
        text := "#1e293b".toList
        textSecondary := "#64748b".toList } := by
  unfold generateColorPalette
  rw [h, Option.map_some']
  rfl

lemma hslToHex_out_of_band {hsl : HSLColor} (h : ¬(0 ≤ hsl.h / 360 ∧ hsl.h / 360 < 1)) :
    hslToHex hsl = '#' ::
      (toStr16Pad2 (jsRound ((hsl.l / 100 -
          (1 - |2 * (hsl.l / 100) - 1|) * (hsl.s / 100) / 2) * 255)) ++
        (toStr16Pad2 (jsRound ((hsl.l / 100 -
            (1 - |2 * (hsl.l / 100) - 1|) * (hsl.s / 100) / 2) * 255)) ++
          toStr16Pad2 (jsRound ((hsl.l / 100 -
            (1 - |2 * (hsl.l / 100) - 1|) * (hsl.s / 100) / 2) * 255)))) := by
  have g1 : ¬(0 ≤ hsl.h / 360 ∧ hsl.h / 360 < 1/6) := fun ⟨a, b⟩ => h ⟨a, by linarith⟩
  have g2 : ¬(1/6 ≤ hsl.h / 360 ∧ hsl.h / 360 < 2/6) :=
    fun ⟨a, b⟩ => h ⟨by linarith, by linarith⟩
  have g3 : ¬(2/6 ≤ hsl.h / 360 ∧ hsl.h / 360 < 3/6) :=
    fun ⟨a, b⟩ => h ⟨by linarith, by linarith⟩
  have g4 : ¬(3/6 ≤ hsl.h / 360 ∧ hsl.h / 360 < 4/6) :=
    fun ⟨a, b⟩ => h ⟨by linarith, by linarith⟩
  have g5 : ¬(4/6 ≤ hsl.h / 360 ∧ hsl.h / 360 < 5/6) :=
    fun ⟨a, b⟩ => h ⟨by linarith, by linarith⟩
  have g6 : ¬(5/6 ≤ hsl.h / 360 ∧ hsl.h / 360 < 1) :=
    fun ⟨a, b⟩ => h ⟨by linarith, by linarith⟩
  simp only [hslToHex, if_neg g1, if_neg g2, if_neg g3, if_neg g4, if_neg g5, if_neg g6]
  norm_num

/-! ## Claim theorems -/

/-- The HSL range asserted by the spec for outputs of the variant functions:
hue in `[0, 360)`, saturation and lightness in `[0, 100]`. -/
def inSpecRange (hsl : HSLColor) : Prop :=
  0 ≤ hsl.h ∧ hsl.h < 360 ∧ 0 ≤ hsl.s ∧ hsl.s ≤ 100 ∧ 0 ≤ hsl.l ∧ hsl.l ≤ 100

/-- Claim C1, counterexample: the round-trip contract fails badly at
`#ff0001` — `hexToHSL` rounds its hue to 360, `hslToHex` then collapses it to
`#000000`, and the decoded channels differ by 255, far outside the claimed
±1 tolerance. -/
theorem C1_counterexample :
    (hexToHSL "#ff0001".toList).map hslToHex = some "#000000".toList ∧
      channelsWithin1 "#ff0001".toList "#000000".toList = false := by
  constructor
  · rw [hexToHSL_ff0001, Option.map_some', hslToHex_hue360]
  · decide

/-- Claim C1, amended: the ±1 round-trip bound does not hold for arbitrary
well-formed hex inputs, but it does hold on the achromatic family — for every
channel value `v < 256`, `hslToHex (hexToHSL (grayHex v))` is defined and
every decoded channel differs from `v` by at most 1. -/
theorem C1_amended_gray_roundTrip (v : ℕ) (hv : v < 256) :
    ∃ out, (hexToHSL (grayHex v)).map hslToHex = some out ∧
      channelsWithin1 (grayHex v) out = true := by
  refine ⟨_, gray_roundTrip v hv, ?_⟩
  refine channelsWithin1_gray hv ?_ ?_ ?_ <;> omega

/-- Witness for `C1_amended_gray_roundTrip` at `v = 137`. -/
theorem C1_amended_gray_witness :
    137 < 256 ∧ ∃ out, (hexToHSL (grayHex 137)).map hslToHex = some out ∧
      channelsWithin1 (grayHex 137) out = true :=
  ⟨by norm_num, C1_amended_gray_roundTrip 137 (by norm_num)⟩

/-- Claim C2: the repository's own test expects
`generateColorPalette('#3b82f6').primary === '#3b82f6'`, but the code routes
the seed through `hslToHex ∘ hexToHSL`, which returns `#3c83f6` — every
channel drifts by one, so `primary` is not the seed (case has nothing to do
with it: both strings are lowercase). -/
theorem C2_primary_not_seed :
    (generateColorPalette "#3b82f6".toList).map ColorPalette.primary =
        some "#3c83f6".toList ∧
      "#3c83f6".toList ≠ "#3b82f6".toList := by
  constructor
  · rw [generateColorPalette_eq hexToHSL_3b82f6, Option.map_some']
    dsimp only
    rw [hslToHex_217_91_60]
  · decide

/-- Claim C3, counterexample: the variant functions do not clamp the fields
they leave untouched, so an out-of-range input is not forced back into
range — `lightenColor ⟨0, 0, -200⟩ 20` has lightness `-180 ∉ [0, 100]`. -/
theorem C3_counterexample :
    ¬ (∀ (hsl : HSLColor) (amount offset : ℚ),
        inSpecRange (lightenColor hsl amount) ∧
        inSpecRange (darkenColor hsl amount) ∧
        inSpecRange (getComplementaryColor hsl) ∧
        inSpecRange (getAnalogousColor hsl offset)) := by
  intro hall
  have h := ((hall ⟨0, 0, -200⟩ 20 30).1).2.2.2.2.1
  norm_num [lightenColor, inSpecRange, min_def] at h

/-- Claim C3, amended: each variant function is total and adjusts only the
component it modifies, and only on the side its arithmetic can exceed:
`lightenColor` caps `l` at 100, `darkenColor` floors it at 0, and the two hue
rotations wrap `h` into `[0, 360)` by the JavaScript remainder, which lands in
that interval whenever the pre-wrap hue `h + 180` (resp. `h + offset`) is
nonnegative; every other component passes through unchanged, even when out of
range. -/
theorem C3_amended_clamp (hsl : HSLColor) (amount offset : ℚ)
    (h180 : 0 ≤ hsl.h + 180) (hoff : 0 ≤ hsl.h + offset) :
    ((lightenColor hsl amount).h = hsl.h ∧ (lightenColor hsl amount).s = hsl.s ∧
      (lightenColor hsl amount).l = min 100 (hsl.l + amount) ∧
      (lightenColor hsl amount).l ≤ 100) ∧
    ((darkenColor hsl amount).h = hsl.h ∧ (darkenColor hsl amount).s = hsl.s ∧
      (darkenColor hsl amount).l = max 0 (hsl.l - amount) ∧
      0 ≤ (darkenColor hsl amount).l) ∧
    ((getComplementaryColor hsl).s = hsl.s ∧ (getComplementaryColor hsl).l = hsl.l ∧
      0 ≤ (getComplementaryColor hsl).h ∧ (getComplementaryColor hsl).h < 360) ∧
    ((getAnalogousColor hsl offset).s = hsl.s ∧ (getAnalogousColor hsl offset).l = hsl.l ∧
      0 ≤ (getAnalogousColor hsl offset).h ∧ (getAnalogousColor hsl offset).h < 360) := by
  have c1 := jsMod_nonneg_lt h180 (show (0:ℚ) < 360 by norm_num)
  have c2 := jsMod_nonneg_lt hoff (show (0:ℚ) < 360 by norm_num)
  exact ⟨⟨rfl, rfl, rfl, min_le_left _ _⟩, ⟨rfl, rfl, rfl, le_max_left _ _⟩,
    ⟨rfl, rfl, c1.1, c1.2⟩, ⟨rfl, rfl, c2.1, c2.2⟩⟩

/-- Witness for `C3_amended_clamp` at `⟨400, 50, 50⟩`, amount 20, offset 30. -/
theorem C3_amended_witness :
    (0:ℚ) ≤ (400:ℚ) + 180 ∧ (0:ℚ) ≤ (400:ℚ) + 30 ∧
      (((lightenColor ⟨400, 50, 50⟩ 20).h = (400:ℚ) ∧
        (lightenColor ⟨400, 50, 50⟩ 20).s = (50:ℚ) ∧
        (lightenColor ⟨400, 50, 50⟩ 20).l = min 100 ((50:ℚ) + 20) ∧
        (lightenColor ⟨400, 50, 50⟩ 20).l ≤ 100) ∧
      ((darkenColor ⟨400, 50, 50⟩ 20).h = (400:ℚ) ∧
        (darkenColor ⟨400, 50, 50⟩ 20).s = (50:ℚ) ∧
        (darkenColor ⟨400, 50, 50⟩ 20).l = max 0 ((50:ℚ) - 20) ∧
        0 ≤ (darkenColor ⟨400, 50, 50⟩ 20).l) ∧
      ((getComplementaryColor ⟨400, 50, 50⟩).s = (50:ℚ) ∧
        (getComplementaryColor ⟨400, 50, 50⟩).l = (50:ℚ) ∧
        0 ≤ (getComplementaryColor ⟨400, 50, 50⟩).h ∧
        (getComplementaryColor ⟨400, 50, 50⟩).h < 360) ∧
      ((getAnalogousColor ⟨400, 50, 50⟩ 30).s = (50:ℚ) ∧
        (getAnalogousColor ⟨400, 50, 50⟩ 30).l = (50:ℚ) ∧
        0 ≤ (getAnalogousColor ⟨400, 50, 50⟩ 30).h ∧
        (getAnalogousColor ⟨400, 50, 50⟩ 30).h < 360)) :=
  ⟨by norm_num, by norm_num,
    C3_amended_clamp ⟨400, 50, 50⟩ 20 30 (by norm_num) (by norm_num)⟩

/-- Claim C4: `hexToHSL '#ff0001'` returns hue 360 (red maximal, green one
below blue), and for any HSL whose normalized hue `h/360` is outside `[0, 1)`
none of the six sector guards of `hslToHex` fires, so all three channels
equal `round((l/100 - c/2) * 255)` with `c` the chroma term — hue and
saturation are silently discarded. -/
theorem C4_hue360_collapse :
    hexToHSL "#ff0001".toList = some ⟨360, 100, 50⟩ ∧
      ∀ hsl : HSLColor, ¬(0 ≤ hsl.h / 360 ∧ hsl.h / 360 < 1) →
        hslToHex hsl = '#' ::
          (toStr16Pad2 (jsRound ((hsl.l / 100 -
              (1 - |2 * (hsl.l / 100) - 1|) * (hsl.s / 100) / 2) * 255)) ++
            (toStr16Pad2 (jsRound ((hsl.l / 100 -
                (1 - |2 * (hsl.l / 100) - 1|) * (hsl.s / 100) / 2) * 255)) ++
              toStr16Pad2 (jsRound ((hsl.l / 100 -
                (1 - |2 * (hsl.l / 100) - 1|) * (hsl.s / 100) / 2) * 255)))) :=
  ⟨hexToHSL_ff0001, fun _ h => hslToHex_out_of_band h⟩

/-- Witness for the universally quantified part of `C4_hue360_collapse` at
`⟨360, 100, 50⟩`, the HSL value produced by `#ff0001`. -/
theorem C4_witness :
    ¬((0:ℚ) ≤ (360:ℚ) / 360 ∧ (360:ℚ) / 360 < 1) ∧
      hslToHex ⟨360, 100, 50⟩ = '#' ::
        (toStr16Pad2 (jsRound (((50:ℚ) / 100 -
            (1 - |2 * ((50:ℚ) / 100) - 1|) * ((100:ℚ) / 100) / 2) * 255)) ++
          (toStr16Pad2 (jsRound (((50:ℚ) / 100 -
              (1 - |2 * ((50:ℚ) / 100) - 1|) * ((100:ℚ) / 100) / 2) * 255)) ++
            toStr16Pad2 (jsRound (((50:ℚ) / 100 -
              (1 - |2 * ((50:ℚ) / 100) - 1|) * ((100:ℚ) / 100) / 2) * 255)))) := by
  have hh : ¬((0:ℚ) ≤ (360:ℚ) / 360 ∧ (360:ℚ) / 360 < 1) := by norm_num
  exact ⟨hh, C4_hue360_collapse.2 ⟨360, 100, 50⟩ hh⟩

/-- Claim C5: for every well-formed 6-digit hex seed, `generateColorPalette`
succeeds and all nine palette fields match `^#[0-9a-fA-F]{6}$`. -/
theorem C5_palette_format (s : HexStr) (hwf : wellFormedHex6 s = true) :
    ∃ p, generateColorPalette s = some p ∧
      matchesHexPattern p.primary = true ∧
      matchesHexPattern p.primaryLight = true ∧
      matchesHexPattern p.primaryDark = true ∧
      matchesHexPattern p.secondary = true ∧
      matchesHexPattern p.accent = true ∧
      matchesHexPattern p.background = true ∧
      matchesHexPattern p.surface = true ∧
      matchesHexPattern p.text = true ∧
      matchesHexPattern p.textSecondary = true := by
  obtain ⟨r, g, b, hdec, hr, hg, hb⟩ := decodeChannels_wf hwf
  have hbase := hexToHSL_decode hdec
  have hs := hslOfChannels_s_mem hr hg hb
  have hl := hslOfChannels_l_mem hr hg hb
  refine ⟨_, generateColorPalette_eq hbase, ?_, ?_, ?_, ?_, ?_, ?_, ?_, ?_, ?_⟩
  · exact matchesHexPattern_hslToHex hs.1 hs.2 hl.1 hl.2
  · exact matchesHexPattern_hslToHex hs.1 hs.2
      (le_min (by norm_num) (by linarith [hl.1])) (min_le_left _ _)
  · exact matchesHexPattern_hslToHex hs.1 hs.2
      (le_max_left _ _) (max_le (by norm_num) (by linarith [hl.2]))
  · exact matchesHexPattern_hslToHex hs.1 hs.2 hl.1 hl.2
  · exact matchesHexPattern_hslToHex
      (le_min (by norm_num) (by linarith [hs.1]))
      (le_trans (min_le_left _ _) (by norm_num)) hl.1 hl.2
  · show matchesHexPattern "#ffffff".toList = true
    decide
  · show matchesHexPattern "#f8fafc".toList = true
    decide
  · show matchesHexPattern "#1e293b".toList = true
    decide
  · show matchesHexPattern "#64748b".toList = true
    decide

/-- Witness for `C5_palette_format` at the seed `#3b82f6`. -/
theorem C5_witness :
    wellFormedHex6 "#3b82f6".toList = true ∧
      ∃ p, generateColorPalette "#3b82f6".toList = some p ∧
        matchesHexPattern p.primary = true ∧
        matchesHexPattern p.primaryLight = true ∧
        matchesHexPattern p.primaryDark = true ∧
        matchesHexPattern p.secondary = true ∧
        matchesHexPattern p.accent = true ∧
        matchesHexPattern p.background = true ∧
        matchesHexPattern p.surface = true ∧
        matchesHexPattern p.text = true ∧
        matchesHexPattern p.textSecondary = true :=
  ⟨by decide, C5_palette_format _ (by decide)⟩

/-- Claim C6: for well-formed hex inputs the contrast ratio is defined,
symmetric in its two arguments, and at least 1. -/
theorem C6_contrast_symm_ge_one (a b : HexStr)
    (ha : wellFormedHex6 a = true) (hb : wellFormedHex6 b = true) :
    ∃ q : ℝ, getContrastRatio a b = some q ∧ getContrastRatio b a = some q ∧ 1 ≤ q := by
  obtain ⟨la, hla, ha0⟩ := getLuminance_wf ha
  obtain ⟨lb, hlb, hb0⟩ := getLuminance_wf hb
  refine ⟨(max la lb + 0.05) / (min la lb + 0.05), ?_, ?_, ?_⟩
  · unfold getContrastRatio
    rw [hla, hlb]
  · unfold getContrastRatio
    rw [hlb, hla]
    dsimp only
    rw [max_comm lb la, min_comm lb la]
  · have hmin : (0:ℝ) < min la lb + 0.05 := by
      have := le_min ha0 hb0
      norm_num
      linarith
    rw [le_div_iff₀ hmin]
    have := min_le_max (a := la) (b := lb)
    linarith

/-- Witness for `C6_contrast_symm_ge_one` at `#000000` and `#ffffff`. -/
theorem C6_witness :
    wellFormedHex6 "#000000".toList = true ∧ wellFormedHex6 "#ffffff".toList = true ∧
      ∃ q : ℝ, getContrastRatio "#000000".toList "#ffffff".toList = some q ∧
        getContrastRatio "#ffffff".toList "#000000".toList = some q ∧ 1 ≤ q :=
  ⟨by decide, by decide, C6_contrast_symm_ge_one _ _ (by decide) (by decide)⟩

/-- Claim C7: for a well-formed seed, the accent slot of the palette is the
hex rendering of the HSL triple with hue `(seed.h + 180) mod 360` (the proper
mathematical modulus — the seed hue is nonnegative, so the JavaScript
remainder agrees with it), saturation `min 80 (seed.s + 20)`, and the seed's
lightness. -/
theorem C7_accent_formula (s : HexStr) (hwf : wellFormedHex6 s = true) :
    ∃ base p, hexToHSL s = some base ∧ generateColorPalette s = some p ∧
      p.accent = hslToHex ⟨mathMod (base.h + 180) 360, min 80 (base.s + 20), base.l⟩ := by
  obtain ⟨r, g, b, hdec, hr, hg, hb⟩ := decodeChannels_wf hwf
  have hbase := hexToHSL_decode hdec
  have hh := (hslOfChannels_h_mem hr hg hb).1
  refine ⟨_, _, hbase, generateColorPalette_eq hbase, ?_⟩
  dsimp only
  rw [jsMod_eq_mathMod (by linarith) (by norm_num)]

/-- Witness for `C7_accent_formula` at the seed `#3b82f6`. -/
theorem C7_witness :
    wellFormedHex6 "#3b82f6".toList = true ∧
      ∃ base p, hexToHSL "#3b82f6".toList = some base ∧
        generateColorPalette "#3b82f6".toList = some p ∧
        p.accent = hslToHex ⟨mathMod (base.h + 180) 360, min 80 (base.s + 20), base.l⟩ :=
  ⟨by decide, C7_accent_formula _ (by decide)⟩

/-- Claim C8: the four variant functions change exactly the stated field with
the stated formula (`%` being the JavaScript remainder) and default to
`amount = 20` and `offset = 30`. -/
theorem C8_variant_formulas (hsl : HSLColor) (amount offset : ℚ) :
    lightenColor hsl amount = ⟨hsl.h, hsl.s, min 100 (hsl.l + amount)⟩ ∧
    darkenColor hsl amount = ⟨hsl.h, hsl.s, max 0 (hsl.l - amount)⟩ ∧
    getComplementaryColor hsl = ⟨jsMod (hsl.h + 180) 360, hsl.s, hsl.l⟩ ∧
    getAnalogousColor hsl offset = ⟨jsMod (hsl.h + offset) 360, hsl.s, hsl.l⟩ ∧
    lightenColor hsl = lightenColor hsl 20 ∧
    darkenColor hsl = darkenColor hsl 20 ∧
    getAnalogousColor hsl = getAnalogousColor hsl 30 :=
  ⟨rfl, rfl, rfl, rfl, rfl, rfl, rfl⟩

/-- Claim C9: when the three parsed channels agree (`diff = 0`), `hexToHSL`
returns hue 0 and saturation 0; in particular white maps to `{0, 0, 100}` and
black to `{0, 0, 0}`. -/
theorem C9_achromatic :
    (∀ (s : HexStr) (r g b : ℕ), decodeChannels s = some (r, g, b) → r = g → g = b →
        ∃ l, hexToHSL s = some ⟨0, 0, l⟩) ∧
      hexToHSL "#ffffff".toList = some ⟨0, 0, 100⟩ ∧
      hexToHSL "#000000".toList = some ⟨0, 0, 0⟩ := by
  refine ⟨?_, hexToHSL_ffffff, hexToHSL_000000⟩
  intro s r g b hdec hrg hgb
  subst hgb
  subst hrg
  have hx := hexToHSL_decode hdec
  rw [hslOfChannels_achromatic] at hx
  exact ⟨_, hx⟩

/-- Witness for the universal part of `C9_achromatic` at `#aaaaaa`. -/
theorem C9_witness :
    decodeChannels "#aaaaaa".toList = some (170, 170, 170) ∧
      ∃ l, hexToHSL "#aaaaaa".toList = some ⟨0, 0, l⟩ :=
  ⟨by decide, C9_achromatic.1 _ 170 170 170 (by decide) rfl rfl⟩

/-- Claim C10: the channels `hslToHex` renders as two-digit hex are exactly
the `r`, `g`, `b` fields computed by the internal `hslToRgb` helper on the
same input. -/
theorem C10_render_matches_hslToRgb (hsl : HSLColor) :
    hslToHex hsl = '#' :: (toStr16Pad2 (hslToRgb hsl).r ++
      (toStr16Pad2 (hslToRgb hsl).g ++ toStr16Pad2 (hslToRgb hsl).b)) :=
  hslToHex_channels hsl
